import Mathlib

/-!
# Game of Life board (`src/game_of_life.cpp`)

A shallow embedding of `class Board` and of the simulation loop of `main`.

Modelling conventions
* `int` is modelled by `Int`.  Every value the board code computes lies between
  `-1` and `2 * max width height`, so no sum leaves the 32-bit range for grids
  with fewer than `2^30` cells per side.  `countNeighborsInt32` and `updateInt32`
  are the same functions with every `int` sum of the index arithmetic checked
  against that range (signed overflow is undefined behaviour and returns `none`);
  below `2^30` cells per side they agree with `countNeighbors` and `update`.
* `std::vector<std::vector<bool>>` is `List (List Bool)`; `std::string` is `List Char`.
* An access outside a vector and a remainder by zero are undefined behaviour in
  C++; here they make the operation return `none`.
* The file system is a parameter: `read` receives the lines `getline` yields
  (none when the file cannot be opened), `save` receives whether the output
  stream opened and returns the text written; `getlines` gives the lines of a text.
-/

namespace GameOfLife

/-! ## Definitions -/

/-- Field `ALIVE_CHAR` of `Board` (never assigned after initialisation). -/
def ALIVE_CHAR : Char := '*'

/-- Field `DEAD_CHAR` of `Board` (never assigned after initialisation). -/
def DEAD_CHAR : Char := '_'

/-- The data members of `class Board`. -/
structure Board where
  width : Int
  height : Int
  board : List (List Bool)
deriving DecidableEq

/-- `Board() = default`: `width = 0`, `height = 0`, empty grid. -/
def Board.new : Board := { width := 0, height := 0, board := [] }

/-- Indexing `v[i]` of a vector by an `int`: defined only for `0 <= i < v.size()`. -/
def vecGet {α : Type} (v : List α) (i : Int) : Option α :=
  if 0 ≤ i then v[i.toNat]? else none

/-- The `int` remainder `a % b` of C++ (truncated towards zero), undefined for `b = 0`. -/
def cRem (a b : Int) : Option Int :=
  if b = 0 then none else some (Int.tmod a b)

/-- The read `board[y][x]` on a grid. -/
def gridGet (g : List (List Bool)) (x y : Int) : Option Bool :=
  (vecGet g y).bind (fun row => vecGet row x)

/-- The write `board[y][x] = alive` on a grid. -/
def gridSet (g : List (List Bool)) (x y : Int) (alive : Bool) : Option (List (List Bool)) :=
  (vecGet g y).bind (fun row =>
    (vecGet row x).bind (fun _ => some (g.set y.toNat (row.set x.toNat alive))))

/-- `Board::getCell`. -/
def Board.getCell (b : Board) (x y : Int) : Option Bool := gridGet b.board x y

/-- `Board::setCell`. -/
def Board.setCell (b : Board) (x y : Int) (alive : Bool) : Option Board :=
  (gridSet b.board x y alive).map (fun g => { b with board := g })

/-- The values `-1, 0, 1` taken by the loop variables `i` and `j` of `countNeighbors`. -/
def offsets : List Int := [-1, 0, 1]

/-- Body of the inner loop of `Board::countNeighbors` for the offsets `i`, `j`. -/
def countStep (b : Board) (x y i j : Int) (count : Int) : Option Int :=
  (cRem (x + i + b.width) b.width).bind (fun newX =>
    (cRem (y + j + b.height) b.height).bind (fun newY =>
      (gridGet b.board newX newY).bind (fun cell =>
        some (if cell then count + 1 else count))))

/-- `Board::countNeighbors`: the two nested loops over the 3x3 block, then the
decrement when the centre is alive. -/
def Board.countNeighbors (b : Board) (x y : Int) : Option Int :=
  (offsets.foldlM (fun count i =>
      offsets.foldlM (fun count j => countStep b x y i j count) count) (0 : Int)).bind
    (fun count =>
      (gridGet b.board x y).bind (fun centre =>
        some (if centre then count - 1 else count)))

/-- The values `0, 1, ..., n - 1` taken by a loop `for (int k = 0; k < n; ++k)`. -/
def loopRange (n : Int) : List Int := (List.range n.toNat).map Int.ofNat

/-- Body of the inner loop of `Board::update` at cell `(x, y)`: the count and the
old cell are read from `b`, the new cell is written to `new_board`. -/
def updateStep (b : Board) (x y : Int) (new_board : List (List Bool)) :
    Option (List (List Bool)) :=
  (b.countNeighbors x y).bind (fun neighbors =>
    (gridGet b.board x y).bind (fun cell =>
      if cell then gridSet new_board x y (neighbors == 2 || neighbors == 3)
      else gridSet new_board x y (neighbors == 3)))

/-- `Board::update`: `new_board` starts as a copy of `board`, is filled cell by
cell and finally replaces `board`. -/
def Board.update (b : Board) : Option Board :=
  ((loopRange b.height).foldlM (fun new_board y =>
      (loopRange b.width).foldlM (fun new_board x => updateStep b x y new_board) new_board)
    b.board).map (fun new_board => { b with board := new_board })

/-- `Board::isValid`. -/
def Board.isValid (b : Board) : Bool := b.width == b.height && decide (b.width > 0)

/-- The grid has `height > 0` rows of `width > 0` cells. -/
def Board.Rect (b : Board) : Prop :=
  0 < b.width ∧ 0 < b.height ∧ b.board.length = b.height.toNat ∧
    ∀ row ∈ b.board, row.length = b.width.toNat

/-- The eight offsets `(i, j)` of the 3x3 block other than the centre `(0, 0)`. -/
def neighbourOffsets : List (Int × Int) :=
  (offsets.flatMap (fun i => offsets.map (fun j => (i, j)))).filter (fun p => p != (0, 0))

/-- Cell `(x, y)` of the board is alive. -/
def Board.aliveAt (b : Board) (x y : Int) : Bool := b.getCell x y == some true

/-- The grid has `H` rows of `W` cells. -/
def Shape (g : List (List Bool)) (H W : Nat) : Prop :=
  g.length = H ∧ ∀ row ∈ g, row.length = W

/-- The rule of the game read on the grid of `b`: the cell is alive with two or
three live neighbours, or dead with exactly three. -/
def Board.lifeRule (b : Board) (x y : Int) : Bool :=
  (b.getCell x y == some true
      && (b.countNeighbors x y == some 2 || b.countNeighbors x y == some 3))
    || (b.getCell x y == some false && b.countNeighbors x y == some 3)

/-- A 3x3 board with the middle column alive. -/
def column3 : Board :=
  { width := 3, height := 3,
    board := [[false, true, false], [false, true, false], [false, true, false]] }

/-- `Board::isValidChar`. -/
def isValidChar (ch : Char) : Bool := ch == ALIVE_CHAR || ch == DEAD_CHAR

/-- `Board::isValidInputText`: the loop returns `false` at the first row whose
size differs from that of `string_vect[0]` or that holds an invalid character.
`string_vect[0]` is only evaluated inside the loop, where the vector is not empty. -/
def isValidInputText (string_vect : List (List Char)) : Bool :=
  string_vect.all (fun row =>
    !(row.length != (string_vect.headD []).length || row.any (fun ch => !isValidChar ch)))

/-- `Board::resizeBoard`: `board.resize(height, std::vector<bool>(width, false))`
keeps the first `height` rows as they are and appends rows of `width` dead
cells up to `height` rows. -/
def Board.resizeBoard (b : Board) : Board :=
  { b with board := b.board.take b.height.toNat
      ++ List.replicate (b.height.toNat - b.board.length) (List.replicate b.width.toNat false) }

/-- Body of the inner loop of `Board::read`:
`setCell(x, y, (string_vect[y][x] == ALIVE_CHAR))`. -/
def readStep (string_vect : List (List Char)) (x y : Int) (b : Board) : Option Board :=
  (vecGet string_vect y).bind (fun row =>
    (vecGet row x).bind (fun ch => b.setCell x y (ch == ALIVE_CHAR)))

/-- `Board::read`.  `file` is `none` when the input stream does not open and
otherwise the lines `getline` yields; the result is the returned `bool` and the
board after the call. -/
def Board.read (b : Board) (file : Option (List (List Char))) : Option (Bool × Board) :=
  let string_vect := file.getD []
  if string_vect.isEmpty then some (false, b)
  else if !isValidInputText string_vect then some (false, b)
  else
    let b1 := Board.resizeBoard
      { b with height := string_vect.length, width := (string_vect.headD []).length }
    ((loopRange b1.height).foldlM (fun bd y =>
        (loopRange b1.width).foldlM (fun bd x => readStep string_vect x y bd) bd) b1).map
      (fun bd => (true, bd))

/-- `Board::save`.  `fileOk` tells whether the output stream opened; the result
is the returned `bool` and the text written. -/
def Board.save (b : Board) (fileOk : Bool) : Option (Bool × List Char) :=
  if !fileOk then some (false, [])
  else
    ((loopRange b.height).foldlM (fun out y =>
        ((loopRange b.width).foldlM (fun out x =>
            (b.getCell x y).map (fun c => out ++ [if c then ALIVE_CHAR else DEAD_CHAR])) out).map
          (fun out => out ++ ['\n'])) []).map
      (fun out => (true, out))

/-- The input is accepted, in the words of the specification: it yields at
least one line, every line has the length of the first line, and every
character is `'*'` or `'_'`. -/
def Accepted (file : Option (List (List Char))) : Prop :=
  file.getD [] ≠ [] ∧ ∀ row ∈ file.getD [],
    row.length = ((file.getD []).headD []).length ∧ ∀ ch ∈ row, ch = '*' ∨ ch = '_'

/-- Character `x` of line `y` of the input. -/
def charAt (string_vect : List (List Char)) (x y : Int) : Option Char :=
  (vecGet string_vect y).bind (fun row => vecGet row x)

/-- The text of a list of lines, each terminated by a newline. -/
def linesText (string_vect : List (List Char)) : List Char :=
  (string_vect.map (fun row => row ++ ['\n'])).flatten

/-- The fields of `struct Params` the simulation loop reads. -/
structure Params where
  iterations : Int
  save_all : Bool
  do_display_board : Bool

/-- The calls `main` makes on the board inside its loop, with the generation
number and, for `save`, the value it returned. -/
inductive Event where
  | update (i : Int)
  | save (i : Int) (ok : Bool)
deriving DecidableEq

/-- Body of the simulation loop of `main` at generation `i`: `board.update()`,
then `board.save(...)` when `save_all || i == iterations`; the value `save`
returns is not used.  `sinkOk i` tells whether the output file of generation `i` opens. -/
def mainStep (params : Params) (sinkOk : Int → Bool) (st : Board × List Event) (i : Int) :
    Option (Board × List Event) :=
  (st.1.update).bind (fun b1 =>
    if params.save_all || i == params.iterations then
      (b1.save (sinkOk i)).bind (fun r =>
        some (b1, st.2 ++ [Event.update i, Event.save i r.1]))
    else some (b1, st.2 ++ [Event.update i]))

/-- Function `main`: `parsed` is `none` when `parseProgramArguments` returns `false`.
The result is the exit code, the board at exit and the calls made on it in the
loop.  Console output and the pause of the display mode are left out. -/
def main (parsed : Option Params) (file : Option (List (List Char))) (sinkOk : Int → Bool) :
    Option (Int × Board × List Event) :=
  match parsed with
  | none => some (1, Board.new, [])
  | some params =>
    (Board.new.read file).bind (fun r =>
      if !r.1 then some (1, r.2, [])
      else
        (((loopRange params.iterations).map (fun k => k + 1)).foldlM
            (mainStep params sinkOk) (r.2, [])).map
          (fun st => (0, st.1, st.2)))

/-- The character `save` writes for a cell. -/
def renderCell (c : Bool) : Char := if c then ALIVE_CHAR else DEAD_CHAR

/-- The characters `save` writes for a row, without the newline. -/
def renderRow (row : List Bool) : List Char := row.map renderCell

/-- A 2x2 input with one live cell on each row. -/
def diag2 : List (List Char) := [['*', '_'], ['_', '*']]

/-- A 2-row, 3-column input: the first row alive, the second dead. -/
def wide23 : List (List Char) := [['*', '*', '*'], ['_', '_', '_']]

/-- The board after `n` calls of `update`. -/
def updateN : Nat → Board → Option Board
  | 0, b => some b
  | n + 1, b => (b.update).bind (updateN n)

/-- The 5x5 board whose only live cells are `(1, 2)`, `(2, 2)`, `(3, 2)`. -/
def blinkerH : Board :=
  { width := 5, height := 5,
    board := [[false, false, false, false, false],
              [false, false, false, false, false],
              [false, true, true, true, false],
              [false, false, false, false, false],
              [false, false, false, false, false]] }

/-- The 5x5 board whose only live cells are `(2, 1)`, `(2, 2)`, `(2, 3)`. -/
def blinkerV : Board :=
  { width := 5, height := 5,
    board := [[false, false, false, false, false],
              [false, false, true, false, false],
              [false, false, true, false, false],
              [false, false, true, false, false],
              [false, false, false, false, false]] }

/-- The 4x4 board whose live cells are the 2x2 block on columns `x0`, `x0 + 1`
and rows `y0`, `y0 + 1`, both taken modulo 4. -/
def blockBoard (x0 y0 : Fin 4) : Board :=
  { width := 4, height := 4,
    board := (List.range 4).map (fun y => (List.range 4).map (fun x =>
      (decide (x = x0.val) || decide (x = (x0.val + 1) % 4))
        && (decide (y = y0.val) || decide (y = (y0.val + 1) % 4)))) }

/-- The board of the given size with every cell dead. -/
def deadBoard (width height : Int) : Board :=
  { width := width, height := height,
    board := List.replicate height.toNat (List.replicate width.toNat false) }

/-- A 1-row, 3-column input with every cell alive. -/
def row3 : List (List Char) := [['*', '*', '*']]

/-- A 1x1 input with its cell dead. -/
def dead1 : List (List Char) := [['_']]

/-- The loop `while (getline(file, line)) string_vect.push_back(line)` on the
rest of a text, `line` being the characters of the current line read so far.
`std::getline` stops at each `'\n'` and drops it; at the end of the text a
non-empty last line is still returned and an empty one is not. -/
def getlinesAux : List Char → List Char → List (List Char)
  | [], line => if line.isEmpty then [] else [line]
  | ch :: rest, line =>
    if ch = '\n' then line :: getlinesAux rest [] else getlinesAux rest (line ++ [ch])

/-- The lines `read` collects from the text of a file. -/
def getlines (text : List Char) : List (List Char) := getlinesAux text []

/-- The least value of a 32-bit `int`. -/
def INT_MIN : Int := -2147483648

/-- The greatest value of a 32-bit `int`. -/
def INT_MAX : Int := 2147483647

/-- The sum `a + b` on 32-bit `int`: a result outside the `int` range is signed
overflow, which is undefined behaviour. -/
def addInt (a b : Int) : Option Int :=
  if INT_MIN ≤ a + b ∧ a + b ≤ INT_MAX then some (a + b) else none

/-- The value a 32-bit two's-complement register holds for the integer `n`. -/
def wrapInt (n : Int) : Int := (n + 2147483648) % 4294967296 - 2147483648

/-- Body of the inner loop of `Board::countNeighbors` with the sums
`x + i + width` and `y + j + height` computed on 32-bit `int`, left to right. -/
def countStepInt32 (b : Board) (x y i j : Int) (count : Int) : Option Int :=
  (addInt x i).bind (fun xi =>
    (addInt xi b.width).bind (fun sx =>
      (cRem sx b.width).bind (fun newX =>
        (addInt y j).bind (fun yj =>
          (addInt yj b.height).bind (fun sy =>
            (cRem sy b.height).bind (fun newY =>
              (gridGet b.board newX newY).bind (fun cell =>
                some (if cell then count + 1 else count))))))))

/-- `Board::countNeighbors` with the index sums computed on 32-bit `int`. -/
def Board.countNeighborsInt32 (b : Board) (x y : Int) : Option Int :=
  (offsets.foldlM (fun count i =>
      offsets.foldlM (fun count j => countStepInt32 b x y i j count) count) (0 : Int)).bind
    (fun count =>
      (gridGet b.board x y).bind (fun centre =>
        some (if centre then count - 1 else count)))

/-- Body of the inner loop of `Board::update`, calling `countNeighborsInt32`. -/
def updateStepInt32 (b : Board) (x y : Int) (new_board : List (List Bool)) :
    Option (List (List Bool)) :=
  (b.countNeighborsInt32 x y).bind (fun neighbors =>
    (gridGet b.board x y).bind (fun cell =>
      if cell then gridSet new_board x y (neighbors == 2 || neighbors == 3)
      else gridSet new_board x y (neighbors == 3)))

/-- `Board::update` with the index sums of `countNeighbors` computed on 32-bit `int`. -/
def Board.updateInt32 (b : Board) : Option Board :=
  ((loopRange b.height).foldlM (fun new_board y =>
      (loopRange b.width).foldlM (fun new_board x => updateStepInt32 b x y new_board) new_board)
    b.board).map (fun new_board => { b with board := new_board })

/-- The all-dead board of 1 row and `2^30 + 1` columns. -/
def wideBoard : Board := deadBoard 1073741825 1

/-! ## Theorems -/

/-! ### Vector and grid access -/

theorem vecGet_of_lt {α : Type} (v : List α) (i : Int) (h0 : 0 ≤ i) (h1 : i.toNat < v.length) :
    vecGet v i = some v[i.toNat] := by
  simp [vecGet, h0, List.getElem?_eq_getElem h1]

theorem Board.Rect.gridGet_isSome {b : Board} (hb : b.Rect) {x y : Int}
    (hx0 : 0 ≤ x) (hx1 : x < b.width) (hy0 : 0 ≤ y) (hy1 : y < b.height) :
    ∃ c, gridGet b.board x y = some c := by
  obtain ⟨_, _, hlen, hrow⟩ := hb
  have hy : y.toNat < b.board.length := by omega
  have hr : (b.board[y.toNat]).length = b.width.toNat :=
    hrow _ (List.getElem_mem _)
  have hx : x.toNat < (b.board[y.toNat]).length := by omega
  refine ⟨(b.board[y.toNat])[x.toNat], ?_⟩
  rw [gridGet, vecGet_of_lt _ _ hy0 hy, Option.some_bind, vecGet_of_lt _ _ hx0 hx]

theorem cRem_wrap (a w : Int) (hw : 0 < w) (ha : 0 ≤ a + w) :
    cRem (a + w) w = some (a % w) := by
  have hne : w ≠ 0 := by omega
  simp [cRem, hne, Int.tmod_eq_emod ha (le_of_lt hw)]

/-! ### Neighbour counting -/

theorem Board.Rect.countStep_eq {b : Board} (hb : b.Rect) {x y : Int}
    (hx0 : 0 ≤ x) (hy0 : 0 ≤ y) (i j : Int) (hi : -1 ≤ i) (hj : -1 ≤ j) (count : Int) :
    countStep b x y i j count
      = some (count + if b.aliveAt ((x + i) % b.width) ((y + j) % b.height) then 1 else 0) := by
  have hw := hb.1
  have hh := hb.2.1
  obtain ⟨c, hc⟩ := hb.gridGet_isSome
    (Int.emod_nonneg (x + i) (ne_of_gt hw)) (Int.emod_lt_of_pos (x + i) hw)
    (Int.emod_nonneg (y + j) (ne_of_gt hh)) (Int.emod_lt_of_pos (y + j) hh)
  rw [countStep, cRem_wrap (x + i) b.width hw (by omega), Option.some_bind,
    cRem_wrap (y + j) b.height hh (by omega), Option.some_bind, hc, Option.some_bind]
  cases c <;> simp [Board.aliveAt, Board.getCell, hc]

theorem Board.Rect.countNeighbors_eq {b : Board} (hb : b.Rect) {x y : Int}
    (hx0 : 0 ≤ x) (hx1 : x < b.width) (hy0 : 0 ≤ y) (hy1 : y < b.height) :
    b.countNeighbors x y
      = some ((neighbourOffsets.countP
          (fun p => b.aliveAt ((x + p.1) % b.width) ((y + p.2) % b.height)) : Nat) : Int) := by
  obtain ⟨c, hc⟩ := hb.gridGet_isSome hx0 hx1 hy0 hy1
  have hxm : x % b.width = x := Int.emod_eq_of_lt hx0 hx1
  have hym : y % b.height = y := Int.emod_eq_of_lt hy0 hy1
  have hal : b.aliveAt x y = c := by cases c <;> simp [Board.aliveAt, Board.getCell, hc]
  have hnb : neighbourOffsets
      = [(-1, -1), (-1, 0), (-1, 1), (0, -1), (0, 1), (1, -1), (1, 0), (1, 1)] := by decide
  simp only [Board.countNeighbors, offsets, List.foldlM_cons, List.foldlM_nil,
    Option.pure_def, Option.bind_eq_bind,
    hb.countStep_eq hx0 hy0 (-1) (-1) (by decide) (by decide),
    hb.countStep_eq hx0 hy0 (-1) 0 (by decide) (by decide),
    hb.countStep_eq hx0 hy0 (-1) 1 (by decide) (by decide),
    hb.countStep_eq hx0 hy0 0 (-1) (by decide) (by decide),
    hb.countStep_eq hx0 hy0 0 0 (by decide) (by decide),
    hb.countStep_eq hx0 hy0 0 1 (by decide) (by decide),
    hb.countStep_eq hx0 hy0 1 (-1) (by decide) (by decide),
    hb.countStep_eq hx0 hy0 1 0 (by decide) (by decide),
    hb.countStep_eq hx0 hy0 1 1 (by decide) (by decide),
    Option.some_bind, hc, hnb, List.countP_cons, List.countP_nil, add_zero, hxm, hym, hal]
  congr 1
  push_cast
  cases c <;> simp only [if_true, if_false, Bool.false_eq_true] <;> ring

/-! ### Grid writes and loops -/

theorem gridSet_spec {g : List (List Bool)} {H W : Nat} (hg : Shape g H W) {x y : Int}
    (hx0 : 0 ≤ x) (hx1 : x < W) (hy0 : 0 ≤ y) (hy1 : y < H) (v : Bool) :
    ∃ g', gridSet g x y v = some g' ∧ Shape g' H W ∧
      ∀ x' y', gridGet g' x' y' = if x' = x ∧ y' = y then some v else gridGet g x' y' := by
  obtain ⟨hlen, hrow⟩ := hg
  have hy : y.toNat < g.length := by omega
  have hr : (g[y.toNat]).length = W := hrow _ (List.getElem_mem _)
  have hx : x.toNat < (g[y.toNat]).length := by omega
  refine ⟨g.set y.toNat ((g[y.toNat]).set x.toNat v), ?_, ⟨?_, ?_⟩, ?_⟩
  · rw [gridSet, vecGet_of_lt _ _ hy0 hy, Option.some_bind, vecGet_of_lt _ _ hx0 hx,
      Option.some_bind]
  · rw [List.length_set, hlen]
  · intro row hmem
    rcases List.mem_or_eq_of_mem_set hmem with h | h
    · exact hrow row h
    · rw [h, List.length_set, hr]
  · intro x' y'
    by_cases hy' : 0 ≤ y'
    · by_cases hx' : 0 ≤ x'
      · by_cases hyy : y' = y
        · subst hyy
          by_cases hxx : x' = x
          · subst hxx
            simp [gridGet, vecGet, hy', hx', List.getElem?_set, hy, hx]
          · have hne : x.toNat ≠ x'.toNat := by omega
            simp [gridGet, vecGet, hy', hx', List.getElem?_set, hy, hxx, hne,
              List.getElem?_eq_getElem hy]
        · have hne : y.toNat ≠ y'.toNat := by omega
          simp [gridGet, vecGet, hy', hx', List.getElem?_set, hyy, hne]
      · have hne : x' ≠ x := by omega
        simp [gridGet, vecGet, hx', hne]
    · have hne : y' ≠ y := by omega
      simp [gridGet, vecGet, hy', hne]

/-- A loop `for (int k = 0; k < N; ++k)` whose body never fails while an
invariant `P k` holds ends with `P N`. -/
theorem foldlM_loopRange {σ : Type} (f : σ → Int → Option σ) (P : Nat → σ → Prop) (N : Nat)
    (s0 : σ) (h0 : P 0 s0)
    (hstep : ∀ k, k < N → ∀ s, P k s → ∃ s', f s (k : Int) = some s' ∧ P (k + 1) s') :
    ∃ s', ((List.range N).map Int.ofNat).foldlM f s0 = some s' ∧ P N s' := by
  induction N with
  | zero => exact ⟨s0, rfl, h0⟩
  | succ n ih =>
    obtain ⟨s1, hs1, hP1⟩ := ih (fun k hk s hs => hstep k (Nat.lt_succ_of_lt hk) s hs)
    obtain ⟨s2, hs2, hP2⟩ := hstep n (Nat.lt_succ_self n) s1 hP1
    refine ⟨s2, ?_, hP2⟩
    rw [List.range_succ, List.map_append, List.foldlM_append, hs1]
    simpa using hs2

/-! ### Generation update -/

theorem Board.Rect.updateStep_spec {b : Board} (hb : b.Rect) {x y : Int}
    (hx0 : 0 ≤ x) (hx1 : x < b.width) (hy0 : 0 ≤ y) (hy1 : y < b.height)
    {nb : List (List Bool)} (hnb : Shape nb b.height.toNat b.width.toNat) :
    ∃ g', updateStep b x y nb = some g' ∧ Shape g' b.height.toNat b.width.toNat ∧
      ∀ x' y', gridGet g' x' y'
        = if x' = x ∧ y' = y then some (b.lifeRule x y) else gridGet nb x' y' := by
  obtain ⟨c, hc⟩ := hb.gridGet_isSome hx0 hx1 hy0 hy1
  obtain ⟨n, hn⟩ : ∃ n, b.countNeighbors x y = some n := ⟨_, hb.countNeighbors_eq hx0 hx1 hy0 hy1⟩
  have hxW : x < (b.width.toNat : Int) := by omega
  have hyH : y < (b.height.toNat : Int) := by omega
  cases c with
  | true =>
    have hv : b.lifeRule x y = (n == 2 || n == 3) := by
      simp [Board.lifeRule, Board.getCell, hc, hn]
    rw [hv, updateStep, hn, Option.some_bind, hc, Option.some_bind, if_pos rfl]
    exact gridSet_spec hnb hx0 hxW hy0 hyH _
  | false =>
    have hv : b.lifeRule x y = (n == 3) := by
      simp [Board.lifeRule, Board.getCell, hc, hn]
    rw [hv, updateStep, hn, Option.some_bind, hc, Option.some_bind, if_neg (by decide)]
    exact gridSet_spec hnb hx0 hxW hy0 hyH _

theorem Board.Rect.updateRow_spec {b : Board} (hb : b.Rect) {y : Int}
    (hy0 : 0 ≤ y) (hy1 : y < b.height)
    {nb : List (List Bool)} (hnb : Shape nb b.height.toNat b.width.toNat) :
    ∃ g', (loopRange b.width).foldlM (fun new_board x => updateStep b x y new_board) nb
        = some g' ∧ Shape g' b.height.toNat b.width.toNat ∧
      ∀ x' y', gridGet g' x' y'
        = if y' = y ∧ 0 ≤ x' ∧ x' < b.width then some (b.lifeRule x' y')
          else gridGet nb x' y' := by
  obtain ⟨g', hg', hS, hcell⟩ := foldlM_loopRange
    (fun new_board x => updateStep b x y new_board)
    (fun k g' => Shape g' b.height.toNat b.width.toNat ∧
      ∀ x' y', gridGet g' x' y'
        = if y' = y ∧ 0 ≤ x' ∧ x' < (k : Int) then some (b.lifeRule x' y')
          else gridGet nb x' y')
    b.width.toNat nb
    ⟨hnb, fun x' y' => by rw [if_neg]; omega⟩
    (by
      intro k hk s hs
      obtain ⟨hsS, hsc⟩ := hs
      obtain ⟨g2, hg2, hS2, hc2⟩ :=
        hb.updateStep_spec (x := (k : Int)) (by omega) (by omega) hy0 hy1 hsS
      refine ⟨g2, hg2, hS2, fun x' y' => ?_⟩
      rw [hc2 x' y', hsc x' y']
      by_cases h1 : x' = (k : Int) ∧ y' = y
      · obtain ⟨rfl, rfl⟩ := h1
        rw [if_pos ⟨rfl, rfl⟩, if_pos]
        push_cast
        omega
      · rw [if_neg h1]
        by_cases h2 : y' = y ∧ 0 ≤ x' ∧ x' < (k : Int)
        · rw [if_pos h2, if_pos]
          push_cast
          omega
        · rw [if_neg h2, if_neg]
          push_cast
          omega)
  refine ⟨g', hg', hS, fun x' y' => ?_⟩
  rw [hcell x' y']
  have hW : ((b.width.toNat : Nat) : Int) = b.width := Int.toNat_of_nonneg (le_of_lt hb.1)
  rw [hW]

theorem Board.Rect.update_spec {b : Board} (hb : b.Rect) :
    ∃ g', b.update = some { b with board := g' } ∧ Shape g' b.height.toNat b.width.toNat ∧
      ∀ x' y', gridGet g' x' y'
        = if (0 ≤ y' ∧ y' < b.height) ∧ 0 ≤ x' ∧ x' < b.width then some (b.lifeRule x' y')
          else gridGet b.board x' y' := by
  obtain ⟨g', hg', hS, hcell⟩ := foldlM_loopRange
    (fun new_board y =>
      (loopRange b.width).foldlM (fun new_board x => updateStep b x y new_board) new_board)
    (fun k g' => Shape g' b.height.toNat b.width.toNat ∧
      ∀ x' y', gridGet g' x' y'
        = if (0 ≤ y' ∧ y' < (k : Int)) ∧ 0 ≤ x' ∧ x' < b.width then some (b.lifeRule x' y')
          else gridGet b.board x' y')
    b.height.toNat b.board
    ⟨⟨hb.2.2.1, hb.2.2.2⟩, fun x' y' => by rw [if_neg]; omega⟩
    (by
      intro k hk s hs
      obtain ⟨hsS, hsc⟩ := hs
      obtain ⟨g2, hg2, hS2, hc2⟩ := hb.updateRow_spec (y := (k : Int)) (by omega) (by omega) hsS
      refine ⟨g2, hg2, hS2, fun x' y' => ?_⟩
      rw [hc2 x' y', hsc x' y']
      by_cases h1 : y' = (k : Int) ∧ 0 ≤ x' ∧ x' < b.width
      · rw [if_pos h1, if_pos]
        push_cast
        omega
      · rw [if_neg h1]
        by_cases h2 : (0 ≤ y' ∧ y' < (k : Int)) ∧ 0 ≤ x' ∧ x' < b.width
        · rw [if_pos h2, if_pos]
          push_cast
          omega
        · rw [if_neg h2, if_neg]
          push_cast
          omega)
  refine ⟨g', ?_, hS, fun x' y' => ?_⟩
  · rw [Board.update]
    exact congrArg (Option.map _) hg'
  · rw [hcell x' y']
    have hH : ((b.height.toNat : Nat) : Int) = b.height := Int.toNat_of_nonneg (le_of_lt hb.2.1)
    rw [hH]

theorem column3_rect : column3.Rect :=
  ⟨by decide, by decide, by decide, by decide⟩

theorem isValidInputText_iff (string_vect : List (List Char)) :
    isValidInputText string_vect = true ↔ ∀ row ∈ string_vect,
      row.length = (string_vect.headD []).length ∧ ∀ ch ∈ row, ch = '*' ∨ ch = '_' := by
  simp [isValidInputText, isValidChar, ALIVE_CHAR, DEAD_CHAR, or_iff_not_imp_left]

theorem read_of_not_accepted (b : Board) (file : Option (List (List Char)))
    (h : ¬ Accepted file) : b.read file = some (false, b) := by
  unfold Board.read
  by_cases he : file.getD [] = []
  · simp [he]
  · have hv : isValidInputText (file.getD []) = false := by
      rw [← Bool.not_eq_true, isValidInputText_iff]
      exact fun hall => h ⟨he, hall⟩
    simp [he, hv]

theorem charAt_of_accepted {string_vect : List (List Char)}
    (hv : ∀ row ∈ string_vect,
      row.length = (string_vect.headD []).length ∧ ∀ ch ∈ row, ch = '*' ∨ ch = '_')
    {x y : Int} (hx0 : 0 ≤ x) (hx1 : x < ((string_vect.headD []).length : Int))
    (hy0 : 0 ≤ y) (hy1 : y < (string_vect.length : Int)) :
    ∃ row ch, vecGet string_vect y = some row ∧ vecGet row x = some ch
      ∧ charAt string_vect x y = some ch ∧ (ch = '*' ∨ ch = '_') := by
  have hy : y.toNat < string_vect.length := by omega
  obtain ⟨hlen, hch⟩ := hv _ (List.getElem_mem hy)
  have hx : x.toNat < (string_vect[y.toNat]).length := by omega
  refine ⟨string_vect[y.toNat], (string_vect[y.toNat])[x.toNat], vecGet_of_lt _ _ hy0 hy,
    vecGet_of_lt _ _ hx0 hx, ?_, hch _ (List.getElem_mem hx)⟩
  rw [charAt, vecGet_of_lt _ _ hy0 hy, Option.some_bind, vecGet_of_lt _ _ hx0 hx]

theorem readStep_spec {string_vect : List (List Char)}
    (hv : ∀ row ∈ string_vect,
      row.length = (string_vect.headD []).length ∧ ∀ ch ∈ row, ch = '*' ∨ ch = '_')
    {x y : Int} (hx0 : 0 ≤ x) (hx1 : x < ((string_vect.headD []).length : Int))
    (hy0 : 0 ≤ y) (hy1 : y < (string_vect.length : Int))
    {bd : Board} (hbd : Shape bd.board string_vect.length (string_vect.headD []).length) :
    ∃ bd', readStep string_vect x y bd = some bd' ∧ bd'.width = bd.width
      ∧ bd'.height = bd.height
      ∧ Shape bd'.board string_vect.length (string_vect.headD []).length
      ∧ ∀ x' y', gridGet bd'.board x' y'
          = if x' = x ∧ y' = y then (charAt string_vect x y).map (fun ch => ch == ALIVE_CHAR)
            else gridGet bd.board x' y' := by
  obtain ⟨row, ch, hrow, hch, hat, _⟩ := charAt_of_accepted hv hx0 hx1 hy0 hy1
  obtain ⟨g', hg', hS, hcell⟩ := gridSet_spec hbd hx0 hx1 hy0 hy1 (ch == ALIVE_CHAR)
  refine ⟨{ bd with board := g' }, ?_, rfl, rfl, hS, fun x' y' => ?_⟩
  · rw [readStep, hrow, Option.some_bind, hch, Option.some_bind, Board.setCell, hg']
    rfl
  · rw [hat]
    exact hcell x' y'

theorem readRow_spec {string_vect : List (List Char)}
    (hv : ∀ row ∈ string_vect,
      row.length = (string_vect.headD []).length ∧ ∀ ch ∈ row, ch = '*' ∨ ch = '_')
    {y : Int} (hy0 : 0 ≤ y) (hy1 : y < (string_vect.length : Int))
    {bd : Board} (hbd : Shape bd.board string_vect.length (string_vect.headD []).length) :
    ∃ bd', ((List.range (string_vect.headD []).length).map Int.ofNat).foldlM
          (fun bd x => readStep string_vect x y bd) bd = some bd'
      ∧ bd'.width = bd.width ∧ bd'.height = bd.height
      ∧ Shape bd'.board string_vect.length (string_vect.headD []).length
      ∧ ∀ x' y', gridGet bd'.board x' y'
          = if y' = y ∧ 0 ≤ x' ∧ x' < ((string_vect.headD []).length : Int)
            then (charAt string_vect x' y').map (fun ch => ch == ALIVE_CHAR)
            else gridGet bd.board x' y' := by
  refine foldlM_loopRange (fun bd x => readStep string_vect x y bd)
    (fun k bd' => bd'.width = bd.width ∧ bd'.height = bd.height
      ∧ Shape bd'.board string_vect.length (string_vect.headD []).length
      ∧ ∀ x' y', gridGet bd'.board x' y'
          = if y' = y ∧ 0 ≤ x' ∧ x' < (k : Int)
            then (charAt string_vect x' y').map (fun ch => ch == ALIVE_CHAR)
            else gridGet bd.board x' y')
    (string_vect.headD []).length bd
    ⟨rfl, rfl, hbd, fun x' y' => by rw [if_neg]; omega⟩ ?_
  intro k hk s hs
  obtain ⟨hsw, hsh, hsS, hsc⟩ := hs
  obtain ⟨s2, hs2, hw2, hh2, hS2, hc2⟩ :=
    readStep_spec hv (x := (k : Int)) (by omega) (by omega) hy0 hy1 hsS
  refine ⟨s2, hs2, hw2.trans hsw, hh2.trans hsh, hS2, fun x' y' => ?_⟩
  rw [hc2 x' y', hsc x' y']
  by_cases h1 : x' = (k : Int) ∧ y' = y
  · obtain ⟨rfl, rfl⟩ := h1
    rw [if_pos ⟨rfl, rfl⟩, if_pos]
    push_cast
    omega
  · rw [if_neg h1]
    by_cases h2 : y' = y ∧ 0 ≤ x' ∧ x' < (k : Int)
    · rw [if_pos h2, if_pos]
      push_cast
      omega
    · rw [if_neg h2, if_neg]
      push_cast
      omega

theorem readGrid_spec {string_vect : List (List Char)}
    (hv : ∀ row ∈ string_vect,
      row.length = (string_vect.headD []).length ∧ ∀ ch ∈ row, ch = '*' ∨ ch = '_')
    {bd : Board} (hbd : Shape bd.board string_vect.length (string_vect.headD []).length) :
    ∃ bd', ((List.range string_vect.length).map Int.ofNat).foldlM
          (fun bd y => ((List.range (string_vect.headD []).length).map Int.ofNat).foldlM
            (fun bd x => readStep string_vect x y bd) bd) bd = some bd'
      ∧ bd'.width = bd.width ∧ bd'.height = bd.height
      ∧ Shape bd'.board string_vect.length (string_vect.headD []).length
      ∧ ∀ x' y', gridGet bd'.board x' y'
          = if (0 ≤ y' ∧ y' < (string_vect.length : Int))
              ∧ 0 ≤ x' ∧ x' < ((string_vect.headD []).length : Int)
            then (charAt string_vect x' y').map (fun ch => ch == ALIVE_CHAR)
            else gridGet bd.board x' y' := by
  refine foldlM_loopRange
    (fun bd y => ((List.range (string_vect.headD []).length).map Int.ofNat).foldlM
      (fun bd x => readStep string_vect x y bd) bd)
    (fun k bd' => bd'.width = bd.width ∧ bd'.height = bd.height
      ∧ Shape bd'.board string_vect.length (string_vect.headD []).length
      ∧ ∀ x' y', gridGet bd'.board x' y'
          = if (0 ≤ y' ∧ y' < (k : Int)) ∧ 0 ≤ x' ∧ x' < ((string_vect.headD []).length : Int)
            then (charAt string_vect x' y').map (fun ch => ch == ALIVE_CHAR)
            else gridGet bd.board x' y')
    string_vect.length bd
    ⟨rfl, rfl, hbd, fun x' y' => by rw [if_neg]; omega⟩ ?_
  intro k hk s hs
  obtain ⟨hsw, hsh, hsS, hsc⟩ := hs
  obtain ⟨s2, hs2, hw2, hh2, hS2, hc2⟩ :=
    readRow_spec hv (y := (k : Int)) (by omega) (by omega) hsS
  refine ⟨s2, hs2, hw2.trans hsw, hh2.trans hsh, hS2, fun x' y' => ?_⟩
  rw [hc2 x' y', hsc x' y']
  by_cases h1 : y' = (k : Int) ∧ 0 ≤ x' ∧ x' < ((string_vect.headD []).length : Int)
  · rw [if_pos h1, if_pos]
    push_cast
    omega
  · rw [if_neg h1]
    by_cases h2 : (0 ≤ y' ∧ y' < (k : Int))
        ∧ 0 ≤ x' ∧ x' < ((string_vect.headD []).length : Int)
    · rw [if_pos h2, if_pos]
      push_cast
      omega
    · rw [if_neg h2, if_neg]
      push_cast
      omega

/-- A successful `read` on a board whose resized grid has the shape of the
input: the dimensions are those of the input and every cell is the input's. -/
theorem read_spec (b : Board) (file : Option (List (List Char))) (hacc : Accepted file)
    (hshape : Shape
      (Board.resizeBoard
        { b with height := (file.getD []).length
                 width := ((file.getD []).headD []).length }).board
      (file.getD []).length ((file.getD []).headD []).length) :
    ∃ b', b.read file = some (true, b')
      ∧ b'.height = (file.getD []).length ∧ b'.width = ((file.getD []).headD []).length
      ∧ Shape b'.board (file.getD []).length ((file.getD []).headD []).length
      ∧ ∀ x y, 0 ≤ x → x < b'.width → 0 ≤ y → y < b'.height →
          b'.getCell x y = (charAt (file.getD []) x y).map (fun ch => ch == ALIVE_CHAR) := by
  obtain ⟨hne, hv⟩ := hacc
  obtain ⟨bd', hfold, hw, hh, hS, hcell⟩ := readGrid_spec hv hshape
  refine ⟨bd', ?_, hh, hw, hS, fun x y hx0 hx1 hy0 hy1 => ?_⟩
  · have hvalid : isValidInputText (file.getD []) = true := (isValidInputText_iff _).mpr hv
    unfold Board.read
    simp only [List.isEmpty_iff, hne, if_false, hvalid, Bool.not_true, Bool.false_eq_true]
    exact congrArg (Option.map _) hfold
  · rw [hw] at hx1
    rw [hh] at hy1
    show gridGet bd'.board x y = _
    rw [hcell x y, if_pos ⟨⟨hy0, hy1⟩, hx0, hx1⟩]

theorem resizeBoard_new_shape (H W : Nat) :
    Shape (Board.resizeBoard { Board.new with height := (H : Int), width := (W : Int) }).board
      H W := by
  constructor
  · simp [Board.resizeBoard, Board.new]
  · intro row hrow
    simp [Board.resizeBoard, Board.new] at hrow
    rw [hrow.2]
    simp

theorem gridGet_nat (g : List (List Bool)) (y x : Nat) (hy : y < g.length)
    (hx : x < (g[y]).length) : gridGet g (x : Int) (y : Int) = some ((g[y])[x]) := by
  simp [gridGet, vecGet, List.getElem?_eq_getElem hy, List.getElem?_eq_getElem hx]

theorem saveRow_spec (b : Board) (y : Nat) (hy : y < b.board.length) (out : List Char) :
    ((List.range (b.board[y]).length).map Int.ofNat).foldlM (fun out x =>
        (b.getCell x (y : Int)).map (fun c => out ++ [if c then ALIVE_CHAR else DEAD_CHAR])) out
      = some (out ++ renderRow (b.board[y])) := by
  obtain ⟨out', hout', hP⟩ := foldlM_loopRange
    (fun out x =>
      (b.getCell x (y : Int)).map (fun c => out ++ [if c then ALIVE_CHAR else DEAD_CHAR]))
    (fun k out' => out' = out ++ renderRow ((b.board[y]).take k))
    (b.board[y]).length out (by simp [renderRow])
    (by
      intro k hk s hs
      refine ⟨s ++ [renderCell ((b.board[y])[k])], ?_, ?_⟩
      · show Option.map _ (gridGet b.board (k : Int) (y : Int)) = _
        rw [gridGet_nat b.board y k hy hk]
        rfl
      · subst hs
        show _ = out ++ renderRow ((b.board[y]).take (k + 1))
        rw [List.take_succ, List.getElem?_eq_getElem hk]
        simp only [renderRow, Option.toList, List.map_append, List.map_cons, List.map_nil,
          List.append_assoc])
  rw [hout', hP, List.take_length]

theorem save_spec (b : Board) (hS : Shape b.board b.height.toNat b.width.toNat) :
    b.save true = some (true, linesText (b.board.map renderRow)) := by
  obtain ⟨hlen, hrow⟩ := hS
  obtain ⟨out', hout', hP⟩ := foldlM_loopRange
    (fun out y =>
      ((loopRange b.width).foldlM (fun out x =>
          (b.getCell x y).map (fun c => out ++ [if c then ALIVE_CHAR else DEAD_CHAR])) out).map
        (fun out => out ++ ['\n']))
    (fun k out' => out' = linesText ((b.board.take k).map renderRow))
    b.height.toNat [] (by simp [linesText])
    (by
      intro k hk s hs
      have hy : k < b.board.length := by omega
      have hW : b.width.toNat = (b.board[k]).length := (hrow _ (List.getElem_mem hy)).symm
      refine ⟨s ++ renderRow (b.board[k]) ++ ['\n'], ?_, ?_⟩
      · show Option.map _ (((List.range b.width.toNat).map Int.ofNat).foldlM _ s) = _
        rw [hW, saveRow_spec b k hy s]
        rfl
      · subst hs
        show _ = linesText ((b.board.take (k + 1)).map renderRow)
        rw [List.take_succ, List.getElem?_eq_getElem hy]
        simp only [linesText, Option.toList, List.map_append, List.map_cons, List.map_nil,
          List.flatten_append, List.flatten_cons, List.flatten_nil, List.append_nil,
          List.append_assoc])
  have hfull : b.board.take b.height.toNat = b.board := by
    rw [← hlen, List.take_length]
  rw [hfull] at hP
  rw [← hP]
  unfold Board.save
  simp only [Bool.not_true, Bool.false_eq_true, if_false]
  exact congrArg (Option.map _) hout'

theorem charAt_nat (string_vect : List (List Char)) (y x : Nat) (hy : y < string_vect.length)
    (hx : x < (string_vect[y]).length) :
    charAt string_vect (x : Int) (y : Int) = some ((string_vect[y])[x]) := by
  simp [charAt, vecGet, List.getElem?_eq_getElem hy, List.getElem?_eq_getElem hx]

theorem renderCell_of_sentinel (ch : Char) (h : ch = '*' ∨ ch = '_') :
    renderCell (ch == ALIVE_CHAR) = ch := by
  rcases h with rfl | rfl <;> decide

/-- A grid whose cells are those of an accepted input is rendered as that input. -/
theorem render_eq_input {g : List (List Bool)} {string_vect : List (List Char)}
    (hv : ∀ row ∈ string_vect,
      row.length = (string_vect.headD []).length ∧ ∀ ch ∈ row, ch = '*' ∨ ch = '_')
    (hS : Shape g string_vect.length (string_vect.headD []).length)
    (hcell : ∀ x y : Int, 0 ≤ x → x < ((string_vect.headD []).length : Int) → 0 ≤ y →
      y < (string_vect.length : Int) →
      gridGet g x y = (charAt string_vect x y).map (fun ch => ch == ALIVE_CHAR)) :
    g.map renderRow = string_vect := by
  obtain ⟨hlen, hrow⟩ := hS
  apply List.ext_getElem
  · rw [List.length_map, hlen]
  · intro i h1 h2
    have hi : i < g.length := by simpa using h1
    rw [List.getElem_map]
    have hgi : (g[i]).length = (string_vect.headD []).length := hrow _ (List.getElem_mem hi)
    obtain ⟨hsi, hch⟩ := hv _ (List.getElem_mem h2)
    apply List.ext_getElem
    · rw [renderRow, List.length_map, hgi, hsi]
    · intro j h3 h4
      have hj : j < (g[i]).length := by simpa [renderRow] using h3
      have hc := hcell (j : Int) (i : Int) (by omega) (by omega) (by omega) (by omega)
      rw [gridGet_nat g i j hi hj, charAt_nat string_vect i j h2 h4] at hc
      simp only [Option.map_some', Option.some.injEq] at hc
      simp only [renderRow, List.getElem_map]
      rw [hc]
      exact renderCell_of_sentinel _ (hch _ (List.getElem_mem h4))

theorem read_new_spec (string_vect : List (List Char)) (hacc : Accepted (some string_vect)) :
    ∃ b', Board.new.read (some string_vect) = some (true, b')
      ∧ b'.height = string_vect.length ∧ b'.width = (string_vect.headD []).length
      ∧ Shape b'.board string_vect.length (string_vect.headD []).length
      ∧ ∀ x y, 0 ≤ x → x < b'.width → 0 ≤ y → y < b'.height →
          b'.getCell x y = (charAt string_vect x y).map (fun ch => ch == ALIVE_CHAR) :=
  read_spec Board.new (some string_vect) hacc (resizeBoard_new_shape _ _)

theorem accepted_of_returns_true (b : Board) (file : Option (List (List Char)))
    (h : (b.read file).map Prod.fst = some true) : Accepted file := by
  by_contra hn
  rw [read_of_not_accepted b file hn] at h
  simp at h

/-! ### Claims on `read`, `save` and `main` -/

/-- C3: `read` returns `true` exactly when the input yields at least one line,
every line has the length of the first line and every character is `'*'` or
`'_'`; on any board it returns `false` for an empty input, for a row of another
length and for a character outside the two sentinels. -/
theorem C3_read_accepts_iff (file : Option (List (List Char))) :
    ((Board.new.read file).map Prod.fst = some true ↔ Accepted file)
    ∧ (∀ b : Board, (b.read file).map Prod.fst = some true → Accepted file)
    ∧ (∀ b : Board, ¬ Accepted file → (b.read file).map Prod.fst = some false)
    ∧ (∀ b : Board, file.getD [] = [] → (b.read file).map Prod.fst = some false)
    ∧ (∀ b : Board, (∃ row ∈ file.getD [], row.length ≠ ((file.getD []).headD []).length) →
        (b.read file).map Prod.fst = some false)
    ∧ (∀ b : Board, (∃ row ∈ file.getD [], ∃ ch ∈ row, ch ≠ '*' ∧ ch ≠ '_') →
        (b.read file).map Prod.fst = some false) := by
  have hrej : ∀ b : Board, ¬ Accepted file → (b.read file).map Prod.fst = some false := by
    intro b hn
    rw [read_of_not_accepted b file hn]
    rfl
  refine ⟨⟨accepted_of_returns_true _ _, fun hacc => ?_⟩, fun b => accepted_of_returns_true b _,
    hrej, fun b he => hrej b (fun hacc => hacc.1 he), fun b hex => hrej b (fun hacc => ?_),
    fun b hex => hrej b (fun hacc => ?_)⟩
  · obtain ⟨b', hb', _⟩ := read_spec Board.new file hacc (resizeBoard_new_shape _ _)
    rw [hb']
    rfl
  · obtain ⟨row, hrow, hne⟩ := hex
    exact hne (hacc.2 row hrow).1
  · obtain ⟨row, hrow, ch, hch, h1, h2⟩ := hex
    rcases (hacc.2 row hrow).2 ch hch with h | h
    · exact h1 h
    · exact h2 h

/-- C4: when `read` accepts a list of lines on a newly created board, the board
gets `height` = number of lines, `width` = length of the first line, and every
in-range cell `(x, y)` is alive exactly when character `x` of line `y` is `'*'`. -/
theorem C4_read_populates (string_vect : List (List Char))
    (hacc : (Board.new.read (some string_vect)).map Prod.fst = some true) :
    ∃ b', Board.new.read (some string_vect) = some (true, b')
      ∧ b'.height = string_vect.length ∧ b'.width = (string_vect.headD []).length
      ∧ ∀ x y, 0 ≤ x → x < b'.width → 0 ≤ y → y < b'.height →
          ∃ ch, charAt string_vect x y = some ch ∧ b'.getCell x y = some (decide (ch = '*')) := by
  have hA := accepted_of_returns_true _ _ hacc
  obtain ⟨b', hb', hh, hw, _, hcell⟩ := read_new_spec string_vect hA
  refine ⟨b', hb', hh, hw, fun x y hx0 hx1 hy0 hy1 => ?_⟩
  have hv : ∀ row ∈ string_vect,
      row.length = (string_vect.headD []).length ∧ ∀ ch ∈ row, ch = '*' ∨ ch = '_' := hA.2
  obtain ⟨_, ch, _, _, hat, _⟩ :=
    charAt_of_accepted hv hx0 (by rw [← hw]; exact hx1) hy0 (by rw [← hh]; exact hy1)
  refine ⟨ch, hat, ?_⟩
  rw [hcell x y hx0 hx1 hy0 hy1, hat]
  rfl

/-- Instance of C4 on a 2x2 input. -/
theorem C4_read_populates_witness :
    ∃ b', Board.new.read (some diag2) = some (true, b')
      ∧ b'.height = diag2.length ∧ b'.width = (diag2.headD []).length
      ∧ ∀ x y, 0 ≤ x → x < b'.width → 0 ≤ y → y < b'.height →
          ∃ ch, charAt diag2 x y = some ch ∧ b'.getCell x y = some (decide (ch = '*')) :=
  C4_read_populates diag2 (by decide)

/-- C5: when `read` accepts a list of lines on a newly created board, `save` on
the resulting board, with the output stream open, writes those lines unchanged,
each followed by a newline. -/
theorem C5_read_save_roundtrip (string_vect : List (List Char))
    (hacc : (Board.new.read (some string_vect)).map Prod.fst = some true) :
    ∃ b', Board.new.read (some string_vect) = some (true, b')
      ∧ b'.save true = some (true, linesText string_vect) := by
  have hA := accepted_of_returns_true _ _ hacc
  obtain ⟨b', hb', hh, hw, hS, hcell⟩ := read_new_spec string_vect hA
  refine ⟨b', hb', ?_⟩
  have hS' : Shape b'.board b'.height.toNat b'.width.toNat := by
    rw [hh, hw]
    exact hS
  rw [save_spec b' hS']
  have hv : ∀ row ∈ string_vect,
      row.length = (string_vect.headD []).length ∧ ∀ ch ∈ row, ch = '*' ∨ ch = '_' := hA.2
  have hrender : b'.board.map renderRow = string_vect :=
    render_eq_input hv hS (fun x y hx0 hx1 hy0 hy1 =>
      hcell x y hx0 (by rw [hw]; exact hx1) hy0 (by rw [hh]; exact hy1))
  rw [hrender]

/-- Instance of C5 on a 2x2 input. -/
theorem C5_read_save_roundtrip_witness :
    ∃ b', Board.new.read (some diag2) = some (true, b')
      ∧ b'.save true = some (true, ['*', '_', '\n', '_', '*', '\n']) :=
  C5_read_save_roundtrip diag2 (by decide)

/-- C8: whenever `read` returns `false`, the board after the call is the board
before the call: `width`, `height` and the grid are untouched. -/
theorem C8_read_failure_atomic (b : Board) (file : Option (List (List Char)))
    (h : (b.read file).map Prod.fst = some false) : b.read file = some (false, b) := by
  by_cases hA : Accepted file
  · exfalso
    obtain ⟨hne, hv⟩ := hA
    have hvalid : isValidInputText (file.getD []) = true := (isValidInputText_iff _).mpr hv
    unfold Board.read at h
    simp only [List.isEmpty_iff, hne, if_false, hvalid, Bool.not_true, Bool.false_eq_true,
      Option.map_map] at h
    rw [Option.map_eq_some'] at h
    obtain ⟨_, _, h2⟩ := h
    exact Bool.noConfusion h2
  · exact read_of_not_accepted b file hA

/-- Instance of C8: a populated 3x3 board reading an input with unequal rows. -/
theorem C8_read_failure_atomic_witness :
    column3.read (some [['*', '_'], ['*']]) = some (false, column3) :=
  C8_read_failure_atomic column3 (some [['*', '_'], ['*']]) (by decide)

/-- C6: `read` accepts the 2-row, 3-column input `wide23`; the board it builds
has `width = 3`, `height = 2`, so `isValid` is `false`, and `main` still calls
`update` and `save` on it and exits with code 0.  `read` also accepts a single
empty line, which gives `width = 0`. -/
theorem C6_non_square_accepted :
    Board.new.read (some wide23)
        = some (true, Board.mk 3 2 [[true, true, true], [false, false, false]])
      ∧ (Board.mk 3 2 [[true, true, true], [false, false, false]]).isValid = false
      ∧ Board.new.read (some [[]]) = some (true, Board.mk 0 1 [[]])
      ∧ (Board.mk 0 1 [[]]).isValid = false
      ∧ (main (some ⟨1, false, false⟩) (some wide23) (fun _ => true)).map
          (fun r => (r.1, r.2.2)) = some (0, [Event.update 1, Event.save 1 true]) := by
  decide

/-- C7: with `--iterations 2 --all` on a 1x1 input and every `save` failing,
`main` goes on after the failed save of generation 1, calling `update` and
`save` for generation 2, and exits with code 0. -/
theorem C7_save_failure_ignored :
    (main (some ⟨2, true, false⟩) (some [['*']]) (fun _ => false)).map
        (fun r => (r.1, r.2.2))
      = some (0, [Event.update 1, Event.save 1 false, Event.update 2, Event.save 2 false]) := by
  decide

/-! ### Scenarios -/

/-- C13: one `update` turns the horizontal blinker of the 5x5 board into the
vertical one, and a second `update` gives the horizontal one again. -/
theorem C13_blinker :
    blinkerH.update = some blinkerV ∧ blinkerV.update = some blinkerH
      ∧ updateN 2 blinkerH = some blinkerH := by
  decide

/-- C14: for each of the 16 placements of a 2x2 block on the 4x4 torus (four
live cells, at columns `x0`, `x0 + 1` and rows `y0`, `y0 + 1` modulo 4), `update`
returns the same board, every live cell has neighbour count 3 and every dead
cell has neighbour count at most 2. -/
theorem C14_block_still_life :
    ∀ x0 y0 : Fin 4,
      (blockBoard x0 y0).getCell x0.val y0.val = some true
      ∧ (blockBoard x0 y0).getCell (x0 + 1).val y0.val = some true
      ∧ (blockBoard x0 y0).getCell x0.val (y0 + 1).val = some true
      ∧ (blockBoard x0 y0).getCell (x0 + 1).val (y0 + 1).val = some true
      ∧ ((blockBoard x0 y0).board.map (fun row => row.count true)).sum = 4
      ∧ (blockBoard x0 y0).update = some (blockBoard x0 y0)
      ∧ ∀ x y : Fin 4,
          ((blockBoard x0 y0).getCell x.val y.val = some true
            ∧ (blockBoard x0 y0).countNeighbors x.val y.val = some 3)
          ∨ ((blockBoard x0 y0).getCell x.val y.val = some false
            ∧ ((blockBoard x0 y0).countNeighbors x.val y.val = some 0
              ∨ (blockBoard x0 y0).countNeighbors x.val y.val = some 1
              ∨ (blockBoard x0 y0).countNeighbors x.val y.val = some 2)) := by
  decide

/-- C16: on the 1x1 board with its cell alive `countNeighbors 0 0` is 8 and the
cell is dead after `update`; with its cell dead the count is 0 and the cell
stays dead. -/
theorem C16_one_by_one :
    (Board.mk 1 1 [[true]]).countNeighbors 0 0 = some 8
      ∧ (Board.mk 1 1 [[true]]).update = some (Board.mk 1 1 [[false]])
      ∧ (Board.mk 1 1 [[false]]).countNeighbors 0 0 = some 0
      ∧ (Board.mk 1 1 [[false]]).update = some (Board.mk 1 1 [[false]]) := by
  decide

/-! ### Shape and totality of `update` -/

theorem grid_ext {g1 g2 : List (List Bool)} {H W : Nat} (h1 : Shape g1 H W) (h2 : Shape g2 H W)
    (hcell : ∀ x y : Int, 0 ≤ x → x < (W : Int) → 0 ≤ y → y < (H : Int) →
      gridGet g1 x y = gridGet g2 x y) : g1 = g2 := by
  obtain ⟨hl1, hr1⟩ := h1
  obtain ⟨hl2, hr2⟩ := h2
  apply List.ext_getElem
  · rw [hl1, hl2]
  · intro i hi1 hi2
    have hw1 : (g1[i]).length = W := hr1 _ (List.getElem_mem hi1)
    have hw2 : (g2[i]).length = W := hr2 _ (List.getElem_mem hi2)
    apply List.ext_getElem
    · rw [hw1, hw2]
    · intro j hj1 hj2
      have hc := hcell (j : Int) (i : Int) (by omega) (by omega) (by omega) (by omega)
      rw [gridGet_nat g1 i j hi1 hj1, gridGet_nat g2 i j hi2 hj2] at hc
      exact Option.some.inj hc

theorem deadBoard_rect (width height : Int) (hw : 0 < width) (hh : 0 < height) :
    (deadBoard width height).Rect := by
  refine ⟨hw, hh, ?_, ?_⟩
  · simp [deadBoard]
  · intro row hrow
    simp only [deadBoard] at hrow
    rw [List.eq_of_mem_replicate hrow]
    simp [deadBoard]

theorem read_some_spec (b : Board) (string_vect : List (List Char))
    (hacc : Accepted (some string_vect))
    (hshape : Shape
      (Board.resizeBoard
        { b with height := (string_vect.length : Int)
                 width := ((string_vect.headD []).length : Int) }).board
      string_vect.length (string_vect.headD []).length) :
    ∃ b', b.read (some string_vect) = some (true, b')
      ∧ b'.height = string_vect.length ∧ b'.width = (string_vect.headD []).length
      ∧ Shape b'.board string_vect.length (string_vect.headD []).length
      ∧ ∀ x y, 0 ≤ x → x < b'.width → 0 ≤ y → y < b'.height →
          b'.getCell x y = (charAt string_vect x y).map (fun ch => ch == ALIVE_CHAR) :=
  read_spec b (some string_vect) hacc hshape

theorem resizeBoard_shape (b : Board) (H W : Nat)
    (hrows : ∀ row ∈ b.board.take H, row.length = W) :
    Shape (Board.resizeBoard { b with height := (H : Int), width := (W : Int) }).board H W := by
  constructor
  · simp only [Board.resizeBoard, Int.toNat_ofNat, List.length_append, List.length_take,
      List.length_replicate]
    omega
  · intro row hrow
    simp only [Board.resizeBoard, Int.toNat_ofNat, List.mem_append] at hrow
    rcases hrow with h | h
    · exact hrows row h
    · rw [List.eq_of_mem_replicate h, List.length_replicate]

/-- C17 counterexample: a board populated by reading the 1x3 input `row3` and
then reading the 1x1 input `dead1` ends with `width = 1`, `height = 1` and a row
of three cells, so not every row has `width` cells; a newly created board
reading `dead1` has a row of one cell.  Reading the 2x2 input `diag2` after a
1x1 input writes outside the first row. -/
theorem C17_read_keeps_old_rows :
    Board.new.read (some row3) = some (true, Board.mk 3 1 [[true, true, true]])
      ∧ (Board.mk 3 1 [[true, true, true]]).read (some dead1)
          = some (true, Board.mk 1 1 [[false, true, true]])
      ∧ ¬ (∀ row ∈ (Board.mk 1 1 [[false, true, true]]).board,
            row.length = (Board.mk 1 1 [[false, true, true]]).width.toNat)
      ∧ Board.new.read (some dead1) = some (true, Board.mk 1 1 [[false]])
      ∧ (Board.mk 1 1 [[false]]).read (some diag2) = none := by
  decide

/-- C17, amended: when the rows of the prior grid that the resize keeps (the
first `height` ones) already have the input's `width`, as on a newly created
board or after an earlier read of the same width and any height, a successful
`read` gives the same board as on a newly created board: the grid has exactly
`height` rows of exactly `width` cells and cell `(x, y)` is alive exactly when
character `x` of line `y` is `'*'`. -/
theorem C17_read_on_compatible_rows (b : Board) (string_vect : List (List Char))
    (hacc : (Board.new.read (some string_vect)).map Prod.fst = some true)
    (hrows : ∀ row ∈ b.board.take string_vect.length,
      row.length = (string_vect.headD []).length) :
    ∃ b', b.read (some string_vect) = some (true, b')
      ∧ Board.new.read (some string_vect) = some (true, b')
      ∧ b'.height = string_vect.length ∧ b'.width = (string_vect.headD []).length
      ∧ b'.board.length = b'.height.toNat ∧ (∀ row ∈ b'.board, row.length = b'.width.toNat)
      ∧ ∀ x y, 0 ≤ x → x < b'.width → 0 ≤ y → y < b'.height →
          ∃ ch, charAt string_vect x y = some ch
            ∧ b'.getCell x y = some (decide (ch = '*')) := by
  have hA := accepted_of_returns_true _ _ hacc
  have hv : ∀ row ∈ string_vect,
      row.length = (string_vect.headD []).length ∧ ∀ ch ∈ row, ch = '*' ∨ ch = '_' := hA.2
  obtain ⟨b1, hb1, hh1, hw1, hS1, hcell1⟩ :=
    read_some_spec b string_vect hA (resizeBoard_shape b _ _ hrows)
  obtain ⟨b2, hb2, hh2, hw2, hS2, hcell2⟩ := read_new_spec string_vect hA
  have hboard : b1.board = b2.board := by
    refine grid_ext hS1 hS2 (fun x y hx0 hx1 hy0 hy1 => ?_)
    have e1 := hcell1 x y hx0 (by rw [hw1]; exact hx1) hy0 (by rw [hh1]; exact hy1)
    have e2 := hcell2 x y hx0 (by rw [hw2]; exact hx1) hy0 (by rw [hh2]; exact hy1)
    exact e1.trans e2.symm
  have hEq : b1 = b2 := by
    cases b1
    cases b2
    simp only at hboard hh1 hh2 hw1 hw2
    rw [hboard, hh1, hh2, hw1, hw2]
  refine ⟨b1, hb1, by rw [hEq]; exact hb2, hh1, hw1, ?_, ?_, fun x y hx0 hx1 hy0 hy1 => ?_⟩
  · rw [hh1]
    exact hS1.1
  · rw [hw1]
    exact hS1.2
  · obtain ⟨_, ch, _, _, hat, _⟩ :=
      charAt_of_accepted hv hx0 (by rw [← hw1]; exact hx1) hy0 (by rw [← hh1]; exact hy1)
    refine ⟨ch, hat, ?_⟩
    rw [hcell1 x y hx0 hx1 hy0 hy1, hat]
    rfl

/-- Instance of C17, amended: a 3-row board of width 2 reading the 2x2 input `diag2`. -/
theorem C17_read_on_compatible_rows_witness :
    ∃ b', (Board.mk 2 3 [[true, false], [false, true], [true, true]]).read (some diag2)
        = some (true, b')
      ∧ Board.new.read (some diag2) = some (true, b')
      ∧ b'.height = diag2.length ∧ b'.width = (diag2.headD []).length
      ∧ b'.board.length = b'.height.toNat ∧ (∀ row ∈ b'.board, row.length = b'.width.toNat)
      ∧ ∀ x y, 0 ≤ x → x < b'.width → 0 ≤ y → y < b'.height →
          ∃ ch, charAt diag2 x y = some ch ∧ b'.getCell x y = some (decide (ch = '*')) :=
  C17_read_on_compatible_rows (Board.mk 2 3 [[true, false], [false, true], [true, true]]) diag2
    (by decide) (by decide)

/-! ### Saving then reading -/

theorem getlinesAux_line (row rest line : List Char) (hrow : '\n' ∉ row) :
    getlinesAux (row ++ '\n' :: rest) line = (line ++ row) :: getlinesAux rest [] := by
  induction row generalizing line with
  | nil => simp [getlinesAux]
  | cons ch row ih =>
    have hch : ch ≠ '\n' := fun h => hrow (by simp [h])
    have hrow' : '\n' ∉ row := fun h => hrow (List.mem_cons_of_mem _ h)
    rw [List.cons_append, getlinesAux, if_neg hch, ih _ hrow']
    simp

theorem getlines_linesText (rows : List (List Char)) (h : ∀ row ∈ rows, '\n' ∉ row) :
    getlines (linesText rows) = rows := by
  unfold getlines
  induction rows with
  | nil => simp [linesText, getlinesAux]
  | cons row rows ih =>
    have e : linesText (row :: rows) = row ++ '\n' :: linesText rows := by
      simp [linesText]
    rw [e, getlinesAux_line row _ [] (h row (List.mem_cons_self _ _)),
      ih (fun r hr => h r (List.mem_cons_of_mem _ hr))]
    simp

theorem renderCell_sentinel (c : Bool) : renderCell c = '*' ∨ renderCell c = '_' := by
  cases c
  · exact Or.inr rfl
  · exact Or.inl rfl

theorem renderRow_injective : Function.Injective renderRow := by
  unfold renderRow
  apply List.map_injective_iff.mpr
  intro a b hab
  cases a <;> cases b <;> first | rfl | exact absurd hab (by decide)

/-- C19: for a board with `height > 0` whose grid has `height` rows of `width`
cells, `save` writes a text whose lines `read` accepts, and reading them into a
newly created board gives the same `width`, `height` and grid. -/
theorem C19_save_read_roundtrip (b : Board) (hh : 0 < b.height) (hw : 0 ≤ b.width)
    (hlen : b.board.length = b.height.toNat)
    (hrow : ∀ row ∈ b.board, row.length = b.width.toNat) :
    ∃ text, b.save true = some (true, text)
      ∧ Board.new.read (some (getlines text)) = some (true, b) := by
  refine ⟨_, save_spec b ⟨hlen, hrow⟩, ?_⟩
  have hnl : ∀ row ∈ b.board.map renderRow, '\n' ∉ row := by
    intro row hmem hin
    obtain ⟨r, _, rfl⟩ := List.mem_map.mp hmem
    obtain ⟨c, _, hc⟩ := List.mem_map.mp hin
    rcases renderCell_sentinel c with h | h <;> rw [h] at hc <;> exact absurd hc (by decide)
  rw [getlines_linesText _ hnl]
  have hne : b.board ≠ [] := by
    intro h0
    rw [h0] at hlen
    simp only [List.length_nil] at hlen
    omega
  obtain ⟨r0, rs, hb⟩ := List.exists_cons_of_ne_nil hne
  have hhead : ((b.board.map renderRow).headD []).length = b.width.toNat := by
    rw [hb]
    simp only [List.map_cons, List.headD_cons, renderRow, List.length_map]
    exact hrow r0 (by rw [hb]; exact List.mem_cons_self _ _)
  have hv : ∀ row ∈ b.board.map renderRow,
      row.length = ((b.board.map renderRow).headD []).length
        ∧ ∀ ch ∈ row, ch = '*' ∨ ch = '_' := by
    intro row hmem
    obtain ⟨r, hr, rfl⟩ := List.mem_map.mp hmem
    refine ⟨?_, fun ch hch => ?_⟩
    · rw [hhead, renderRow, List.length_map]
      exact hrow r hr
    · obtain ⟨c, _, rfl⟩ := List.mem_map.mp hch
      exact renderCell_sentinel c
  have hA : Accepted (some (b.board.map renderRow)) :=
    ⟨fun h0 => hne (List.map_eq_nil_iff.mp h0), hv⟩
  obtain ⟨b', hb', hh', hw', hS', hcell'⟩ := read_new_spec _ hA
  rw [hb']
  have hrender : b'.board.map renderRow = b.board.map renderRow :=
    render_eq_input hv hS' (fun x y hx0 hx1 hy0 hy1 =>
      hcell' x y hx0 (by rw [hw']; exact hx1) hy0 (by rw [hh']; exact hy1))
  have hboard : b'.board = b.board := List.map_injective_iff.mpr renderRow_injective hrender
  have hheight : b'.height = b.height := by
    rw [hh', List.length_map, hlen]
    exact Int.toNat_of_nonneg (le_of_lt hh)
  have hwidth : b'.width = b.width := by
    rw [hw', hhead]
    exact Int.toNat_of_nonneg hw
  cases b'
  cases b
  simp only at hboard hheight hwidth
  rw [hboard, hheight, hwidth]

/-- Instance of C19 on the 3x3 board with the middle column alive. -/
theorem C19_save_read_roundtrip_witness :
    ∃ text, column3.save true = some (true, text)
      ∧ Board.new.read (some (getlines text)) = some (true, column3) :=
  C19_save_read_roundtrip column3 (by decide) (by decide) (by decide) (by decide)

/-! ### Distinct neighbours -/

theorem addInt_of_range {a b : Int} (h0 : -2147483648 ≤ a + b) (h1 : a + b ≤ 2147483647) :
    addInt a b = some (a + b) := by
  rw [addInt, if_pos]
  exact ⟨h0, h1⟩

theorem foldlM_congr_mem {σ α : Type} (f g : σ → α → Option σ) (l : List α)
    (h : ∀ s, ∀ a ∈ l, f s a = g s a) (s0 : σ) : l.foldlM f s0 = l.foldlM g s0 := by
  induction l generalizing s0 with
  | nil => rfl
  | cons a l ih =>
    rw [List.foldlM_cons, List.foldlM_cons, h s0 a (List.mem_cons_self _ _)]
    congr 1
    funext s1
    exact ih (fun s b hb => h s b (List.mem_cons_of_mem _ hb)) s1

theorem foldlM_none_of_mem {σ α : Type} (f : σ → α → Option σ) (l : List α) (a : α)
    (ha : a ∈ l) (h : ∀ s, f s a = none) (s0 : σ) : l.foldlM f s0 = none := by
  induction l generalizing s0 with
  | nil => exact absurd ha (List.not_mem_nil a)
  | cons b l ih =>
    rw [List.foldlM_cons]
    rcases List.mem_cons.mp ha with rfl | hmem
    · rw [h s0]
      rfl
    · cases f s0 b with
      | none => rfl
      | some s1 => exact ih hmem s1

theorem mem_offsets {i : Int} (hi : i ∈ offsets) : -1 ≤ i ∧ i ≤ 1 := by
  simp only [offsets, List.mem_cons, List.mem_singleton, List.not_mem_nil, or_false] at hi
  omega

theorem mem_loopRange {n k : Int} (hk : k ∈ loopRange n) : 0 ≤ k ∧ k < n := by
  simp only [loopRange, List.mem_map, List.mem_range] at hk
  obtain ⟨a, ha, rfl⟩ := hk
  have : (Int.ofNat a) = (a : Int) := rfl
  omega

theorem countStepInt32_eq {b : Board} (hw : 0 < b.width) (hh : 0 < b.height)
    (hw1 : b.width < 1073741824) (hh1 : b.height < 1073741824) {x y i j : Int}
    (hx0 : 0 ≤ x) (hx1 : x < b.width) (hy0 : 0 ≤ y) (hy1 : y < b.height)
    (hi : -1 ≤ i ∧ i ≤ 1) (hj : -1 ≤ j ∧ j ≤ 1) (count : Int) :
    countStepInt32 b x y i j count = countStep b x y i j count := by
  have e1 := addInt_of_range (a := x) (b := i) (by omega) (by omega)
  have e2 := addInt_of_range (a := x + i) (b := b.width) (by omega) (by omega)
  have e3 := addInt_of_range (a := y) (b := j) (by omega) (by omega)
  have e4 := addInt_of_range (a := y + j) (b := b.height) (by omega) (by omega)
  simp only [countStepInt32, countStep, e1, e2, e3, e4, Option.some_bind]

theorem countNeighborsInt32_eq {b : Board} (hw : 0 < b.width) (hh : 0 < b.height)
    (hw1 : b.width < 1073741824) (hh1 : b.height < 1073741824) {x y : Int}
    (hx0 : 0 ≤ x) (hx1 : x < b.width) (hy0 : 0 ≤ y) (hy1 : y < b.height) :
    b.countNeighborsInt32 x y = b.countNeighbors x y := by
  have hfold : offsets.foldlM (fun count i =>
        offsets.foldlM (fun count j => countStepInt32 b x y i j count) count) (0 : Int)
      = offsets.foldlM (fun count i =>
        offsets.foldlM (fun count j => countStep b x y i j count) count) (0 : Int) :=
    foldlM_congr_mem _ _ offsets (fun s i hi =>
      foldlM_congr_mem _ _ offsets (fun s' j hj =>
        countStepInt32_eq hw hh hw1 hh1 hx0 hx1 hy0 hy1 (mem_offsets hi) (mem_offsets hj) s') s) 0
  rw [Board.countNeighborsInt32, Board.countNeighbors, hfold]

theorem updateInt32_eq {b : Board} (hw : 0 < b.width) (hh : 0 < b.height)
    (hw1 : b.width < 1073741824) (hh1 : b.height < 1073741824) :
    b.updateInt32 = b.update := by
  have hfold : (loopRange b.height).foldlM (fun new_board y =>
        (loopRange b.width).foldlM (fun new_board x => updateStepInt32 b x y new_board)
          new_board) b.board
      = (loopRange b.height).foldlM (fun new_board y =>
        (loopRange b.width).foldlM (fun new_board x => updateStep b x y new_board)
          new_board) b.board :=
    foldlM_congr_mem _ _ _ (fun s y hy =>
      foldlM_congr_mem _ _ _ (fun s' x hx => by
        rw [updateStepInt32, updateStep,
          countNeighborsInt32_eq hw hh hw1 hh1 (mem_loopRange hx).1 (mem_loopRange hx).2
            (mem_loopRange hy).1 (mem_loopRange hy).2]) s) b.board
  rw [Board.updateInt32, Board.update, hfold]

theorem updateInt32_none_of_cell (b : Board) (x y : Int) (hx : x ∈ loopRange b.width)
    (hy : y ∈ loopRange b.height) (h : b.countNeighborsInt32 x y = none) :
    b.updateInt32 = none := by
  have hrow : ∀ s, (loopRange b.width).foldlM
      (fun new_board x => updateStepInt32 b x y new_board) s = none :=
    foldlM_none_of_mem (fun new_board x => updateStepInt32 b x y new_board) (loopRange b.width)
      x hx (fun s => by
        show updateStepInt32 b x y s = none
        rw [updateStepInt32, h]
        rfl)
  have hfold := foldlM_none_of_mem
    (fun new_board y =>
      (loopRange b.width).foldlM (fun new_board x => updateStepInt32 b x y new_board) new_board)
    (loopRange b.height) y hy hrow b.board
  rw [Board.updateInt32, hfold]
  rfl

/-- C12 counterexample: on the all-dead board of 1 row and `2^30 + 1` columns,
at the in-range cell `x = 2^30`, `y = 0` and offset `i = 1`, the sum
`x + i + width` is `2^31 + 2`, outside the 32-bit `int` range; a wrapping
register holds `-2147483646`, whose remainder by `width` is the index
`-1073741821`.  `countNeighbors` and `update` on 32-bit `int` are undefined there. -/
theorem C12_overflow_counterexample :
    wideBoard.Rect ∧ (0 ≤ (1073741824 : Int) ∧ (1073741824 : Int) < wideBoard.width)
      ∧ (1 : Int) ∈ offsets
      ∧ (addInt 1073741824 1).bind (fun xi => addInt xi wideBoard.width) = none
      ∧ wrapInt (1073741824 + 1 + wideBoard.width) = -2147483646
      ∧ Int.tmod (-2147483646) wideBoard.width = -1073741821
      ∧ wideBoard.countNeighborsInt32 1073741824 0 = none
      ∧ wideBoard.updateInt32 = none := by
  have hcount : wideBoard.countNeighborsInt32 1073741824 0 = none := by decide
  refine ⟨deadBoard_rect _ _ (by decide) (by decide), by decide, by decide, by decide,
    by decide, by decide, hcount, ?_⟩
  have hmem : (1073741824 : Int) ∈ loopRange wideBoard.width :=
    List.mem_map.mpr ⟨1073741824, List.mem_range.mpr (by decide), rfl⟩
  have hmem0 : (0 : Int) ∈ loopRange wideBoard.height :=
    List.mem_map.mpr ⟨0, List.mem_range.mpr (by decide), rfl⟩
  exact updateInt32_none_of_cell wideBoard 1073741824 0 hmem hmem0 hcount

/-- C12, amended: on a board of `height > 0` rows of `width > 0` cells with
`width < 2^30` and `height < 2^30`, `update` and `countNeighbors` computed on
32-bit `int` return a value (the same as over the integers); for every in-range
cell and every pair of offsets the sums `x + i + width` and `y + j + height` stay
in the `int` range and are non-negative, the moduli are non-zero, and the
wrapped column and row are in range and address a cell of the grid. -/
theorem C12_update_total_below_2_30 (b : Board) (hb : b.Rect)
    (hw : b.width < 1073741824) (hh : b.height < 1073741824) :
    (∃ b', b.updateInt32 = some b' ∧ b.update = some b')
    ∧ ∀ x y, 0 ≤ x → x < b.width → 0 ≤ y → y < b.height →
        (∃ n, b.countNeighborsInt32 x y = some n ∧ b.countNeighbors x y = some n)
        ∧ ∀ i ∈ offsets, ∀ j ∈ offsets,
            ∃ sx sy newX newY c,
              (addInt x i).bind (fun xi => addInt xi b.width) = some sx ∧ 0 ≤ sx
              ∧ (addInt y j).bind (fun yj => addInt yj b.height) = some sy ∧ 0 ≤ sy
              ∧ b.width ≠ 0 ∧ b.height ≠ 0
              ∧ cRem sx b.width = some newX ∧ cRem sy b.height = some newY
              ∧ 0 ≤ newX ∧ newX < b.width ∧ 0 ≤ newY ∧ newY < b.height
              ∧ gridGet b.board newX newY = some c := by
  have hw0 := hb.1
  have hh0 := hb.2.1
  obtain ⟨g', hup, _, _⟩ := hb.update_spec
  refine ⟨⟨_, (updateInt32_eq hw0 hh0 hw hh).trans hup, hup⟩, fun x y hx0 hx1 hy0 hy1 =>
    ⟨⟨_, (countNeighborsInt32_eq hw0 hh0 hw hh hx0 hx1 hy0 hy1).trans
        (hb.countNeighbors_eq hx0 hx1 hy0 hy1), hb.countNeighbors_eq hx0 hx1 hy0 hy1⟩,
      fun i hi j hj => ?_⟩⟩
  obtain ⟨hi0, hi1⟩ := mem_offsets hi
  obtain ⟨hj0, hj1⟩ := mem_offsets hj
  have hX0 := Int.emod_nonneg (x + i) (ne_of_gt hw0)
  have hX1 := Int.emod_lt_of_pos (x + i) hw0
  have hY0 := Int.emod_nonneg (y + j) (ne_of_gt hh0)
  have hY1 := Int.emod_lt_of_pos (y + j) hh0
  obtain ⟨c, hc⟩ := hb.gridGet_isSome hX0 hX1 hY0 hY1
  refine ⟨x + i + b.width, y + j + b.height, (x + i) % b.width, (y + j) % b.height, c,
    ?_, by omega, ?_, by omega, ne_of_gt hw0, ne_of_gt hh0,
    cRem_wrap (x + i) b.width hw0 (by omega), cRem_wrap (y + j) b.height hh0 (by omega),
    hX0, hX1, hY0, hY1, hc⟩
  · rw [addInt_of_range (a := x) (b := i) (by omega) (by omega), Option.some_bind,
      addInt_of_range (a := x + i) (b := b.width) (by omega) (by omega)]
  · rw [addInt_of_range (a := y) (b := j) (by omega) (by omega), Option.some_bind,
      addInt_of_range (a := y + j) (b := b.height) (by omega) (by omega)]

/-- Instance of C12, amended, on the 3x3 board with the middle column alive. -/
theorem C12_update_total_below_2_30_witness :
    ∃ b', column3.updateInt32 = some b' ∧ column3.update = some b' :=
  (C12_update_total_below_2_30 column3 column3_rect (by decide) (by decide)).1

end GameOfLife
